import Mathlib

/-!
# Verification of the option-remove-app routes

Shallow embedding of the two Remix routes of this repository:

* `src/app/routes/app.additional.jsx` — the "add option to all products
  missing it" workflow (loader + action), and
* `src/unnamed/part_000` (an `index.jsx` route) — the "remove option by
  name substring" workflow (loader + action).

The remote GraphQL admin API is modelled as an oracle: the sequence of
product pages the paginated `products` query returns is a `List ProductPage`
(the trace of responses the loop receives, in order), and each mutation's
`userErrors` answer is a function from the issued call to a list of
user errors.  JavaScript strings are Lean `String`s, `toLowerCase` is
`String.toLower`, `trim` is `String.trim`, `includes` is an explicit
substring test, and `JSON.parse` is modelled by a small executable JSON
parser covering the fragment relevant to this app (arrays, strings,
integers, booleans, null); a parse failure models the thrown exception.
A JavaScript `TypeError` aborting the action (e.g. `.cursor` on
`undefined`, `.map` on a non-array) is modelled by the `crash` outcome.
-/

namespace OptionApp

/-- An option value as returned by the `products` query
(`optionValues { id name }`). -/
structure OptionValue where
  id : String
  name : String
deriving DecidableEq

/-- A product option as returned by the `products` query
(`options { id name position optionValues { id name } }`); the add route's
query omits `position`/`optionValues`, which it never reads. -/
structure ProductOption where
  id : String
  name : String
  position : Nat
  optionValues : List OptionValue
deriving DecidableEq

/-- A product node (`id`, `title`, `options`). -/
structure Product where
  id : String
  title : String
  options : List ProductOption
deriving DecidableEq

/-- One edge of a product page (`edges { cursor node { ... } }`). -/
structure Edge where
  cursor : String
  node : Product
deriving DecidableEq

/-- `pageInfo { hasNextPage }`. -/
structure PageInfo where
  hasNextPage : Bool
deriving DecidableEq

/-- One response of the paginated `products` query. -/
structure ProductPage where
  edges : List Edge
  pageInfo : PageInfo
deriving DecidableEq

/-- The product nodes of one page, in edge order
(`edges.forEach(({ node }) => all.push(node))`). -/
def pageNodes (pg : ProductPage) : List Product :=
  pg.edges.map Edge.node

/-- The pagination loop shared by both loaders and both action re-fetches:

```
while (hasNext) {
  const resp = await admin.graphql(PRODUCTS_QUERY, ...);
  data.products.edges.forEach(({ node }) => all.push(node));
  hasNext = data.products.pageInfo.hasNextPage;
  cursor = hasNext ? data.products.edges.at(-1).cursor : null;
}
```

The argument is the trace of page responses the loop receives, in order.
`none` models an aborted read: either the trace is exhausted while the
loop still wants a page, or a page with `hasNextPage = true` has no edges,
in which case `edges.at(-1)` (resp. `edges[edges.length - 1]` in the
remove route) is `undefined` and reading `.cursor` throws. -/
def fetchAll : List ProductPage → Option (List Product)
  | [] => none
  | pg :: rest =>
    if pg.pageInfo.hasNextPage then
      match pg.edges.getLast? with
      | none => none
      | some _ => (fetchAll rest).map (fun more => pageNodes pg ++ more)
    else some (pageNodes pg)

/-- A well-formed response trace: every page but the last reports
`hasNextPage = true` and carries at least one edge (so its cursor is
readable), and the last page reports `hasNextPage = false`. This is
exactly the shape of the responses a terminating, non-crashing run of the
pagination loop receives. -/
def wfTrace : List ProductPage → Bool
  | [] => false
  | [pg] => pg.pageInfo.hasNextPage == false
  | pg :: pg' :: rest =>
    pg.pageInfo.hasNextPage && !pg.edges.isEmpty && wfTrace (pg' :: rest)

/-- Does `needle` occur at the head of `hay`? (Helper for the substring
test.) -/
def charsMatchAt : List Char → List Char → Bool
  | [], _ => true
  | _ :: _, [] => false
  | c :: cs, d :: ds => c == d && charsMatchAt cs ds

/-- Does `hay` contain `needle` as a contiguous run? (Helper for the
substring test.) -/
def charsContain : List Char → List Char → Bool
  | n, [] => n.isEmpty
  | n, d :: rest => charsMatchAt n (d :: rest) || charsContain n rest

/-- JavaScript `hay.includes(needle)`: contiguous substring test. -/
def strIncludes (hay needle : String) : Bool :=
  charsContain needle.data hay.data

/-- JavaScript `s.toLowerCase()` (ASCII case folding, which covers this
app's comparisons). -/
def strToLower (s : String) : String :=
  String.mk (s.data.map Char.toLower)

/-- JavaScript `s.trim()`: strip leading and trailing whitespace. -/
def strTrim (s : String) : String :=
  String.mk ((s.data.dropWhile Char.isWhitespace).reverse.dropWhile
    Char.isWhitespace).reverse

/-- A JSON value, as produced by `JSON.parse`. Numbers are kept as exact
rationals (every JSON numeric literal denotes a rational; the actions
never read a numeric value, only whether the parse result is an array);
object members are kept in source order. -/
inductive Json where
  | jnull : Json
  | jbool (b : Bool) : Json
  | jnum (n : Rat) : Json
  | jstr (s : String) : Json
  | jarr (elems : List Json) : Json
  | jobj (members : List (String × Json)) : Json

/-- Skip JSON whitespace. -/
def skipWs : List Char → List Char
  | c :: rest =>
    if c == ' ' || c == '\t' || c == '\n' || c == '\r' then skipWs rest
    else c :: rest
  | [] => []

/-- The numeric value of one hex digit, `none` for a non-hex character. -/
def hexVal (c : Char) : Option Nat :=
  if '0' ≤ c ∧ c ≤ '9' then some (c.toNat - 48)
  else if 'a' ≤ c ∧ c ≤ 'f' then some (c.toNat - 87)
  else if 'A' ≤ c ∧ c ≤ 'F' then some (c.toNat - 55)
  else none

/-- Read a JSON string body up to the closing quote, decoding the JSON
escapes (quote, backslash, slash, `b`, `f`, `n`, `r`, `t`, `uXXXX`) and
rejecting unescaped control characters, as `JSON.parse` does. A `\u`
escape is mapped through `Char.ofNat` (a UTF-16 surrogate half, which a
JavaScript string can hold but a Unicode scalar cannot, maps to NUL; the
parse still succeeds there, as in JavaScript, and the actions never
inspect the decoded text). -/
def parseStrChars : List Char → List Char → Option (String × List Char)
  | [], _ => none
  | c :: rest, acc =>
    if c == '"' then some (String.mk acc.reverse, rest)
    else if c == '\\' then
      match rest with
      | [] => none
      | e :: rest' =>
        if e == '"' then parseStrChars rest' ('"' :: acc)
        else if e == '\\' then parseStrChars rest' ('\\' :: acc)
        else if e == '/' then parseStrChars rest' ('/' :: acc)
        else if e == 'b' then parseStrChars rest' ('\x08' :: acc)
        else if e == 'f' then parseStrChars rest' ('\x0c' :: acc)
        else if e == 'n' then parseStrChars rest' ('\n' :: acc)
        else if e == 'r' then parseStrChars rest' ('\r' :: acc)
        else if e == 't' then parseStrChars rest' ('\t' :: acc)
        else if e == 'u' then
          match rest' with
          | h1 :: h2 :: h3 :: h4 :: rest'' =>
            match hexVal h1, hexVal h2, hexVal h3, hexVal h4 with
            | some a, some b, some c', some d =>
              parseStrChars rest''
                (Char.ofNat (((a * 16 + b) * 16 + c') * 16 + d) :: acc)
            | _, _, _, _ => none
          | _ => none
        else none
    else if c.toNat < 32 then none
    else parseStrChars rest (c :: acc)

/-- Split off a leading run of decimal digits. -/
def takeDigits : List Char → List Char × List Char
  | [] => ([], [])
  | c :: rest =>
    if c.isDigit then
      let (ds, rest') := takeDigits rest
      (c :: ds, rest')
    else ([], c :: rest)

/-- Digits to a natural number. -/
def digitsToNat (ds : List Char) : Nat :=
  ds.foldl (fun acc c => acc * 10 + (c.toNat - 48)) 0

/-- Strip an expected literal from the input. -/
def stripLit : List Char → List Char → Option (List Char)
  | [], cs => some cs
  | l :: ls, c :: cs => if l == c then stripLit ls cs else none
  | _ :: _, [] => none

/-- Parse the optional fraction part of a JSON number, returning its
digits: a dot must be followed by at least one digit (`JSON.parse`
rejects `5.`). -/
def parseFrac : List Char → Option (List Char × List Char)
  | '.' :: rest =>
    match takeDigits rest with
    | ([], _) => none
    | (ds, rest') => some (ds, rest')
  | cs => some ([], cs)

/-- Parse the optional exponent part of a JSON number, returning the
signed decimal exponent: `e`/`E`, an optional sign, then at least one
digit. -/
def parseExp : List Char → Option (Int × List Char)
  | c :: rest =>
    if c == 'e' || c == 'E' then
      let (negExp, rest') := match rest with
        | '-' :: r => (true, r)
        | '+' :: r => (false, r)
        | r => (false, r)
      match takeDigits rest' with
      | ([], _) => none
      | (ds, rest'') =>
        if negExp then some (-(digitsToNat ds : Int), rest'')
        else some ((digitsToNat ds : Int), rest'')
    else some (0, c :: rest)
  | [] => some (0, [])

/-- Parse a JSON number per the JSON grammar: optional minus, an integer
part with no leading zero (a leading `0` stands alone), optional
fraction, optional exponent. The exact value
`± digits(int ++ frac) · 10^exp / 10^|frac|` is built as one `mkRat`. -/
def parseNum (cs : List Char) : Option (Rat × List Char) :=
  let (neg, cs1) := match cs with
    | '-' :: rest => (true, rest)
    | rest => (false, rest)
  match cs1 with
  | [] => none
  | c :: rest =>
    let intDone : Option (List Char × List Char) :=
      if c == '0' then some (['0'], rest)
      else if c.isDigit then some (takeDigits (c :: rest))
      else none
    match intDone with
    | none => none
    | some (intDs, afterInt) =>
      match parseFrac afterInt with
      | none => none
      | some (fracDs, afterFrac) =>
        match parseExp afterFrac with
        | none => none
        | some (e, afterExp) =>
          let mantissa : Int := digitsToNat (intDs ++ fracDs)
          let num : Int := if neg then -mantissa else mantissa
          let q : Rat :=
            if 0 ≤ e then mkRat (num * 10 ^ e.toNat) (10 ^ fracDs.length)
            else mkRat num (10 ^ fracDs.length * 10 ^ (-e).toNat)
          some (q, afterExp)

mutual

/-- Fuel-indexed recursive-descent parse of one JSON value, following the
JSON grammar `JSON.parse` implements: objects, arrays, strings, numbers,
`true`, `false`, `null`, with JSON whitespace. -/
def parseVal : Nat → List Char → Option (Json × List Char)
  | 0, _ => none
  | fuel + 1, cs =>
    match skipWs cs with
    | [] => none
    | c :: rest =>
      if c == '"' then
        match parseStrChars rest [] with
        | some (s, rest') => some (Json.jstr s, rest')
        | none => none
      else if c == '[' then
        match skipWs rest with
        | ']' :: rest' => some (Json.jarr [], rest')
        | other =>
          match parseElems fuel other with
          | some (es, rest') => some (Json.jarr es, rest')
          | none => none
      else if c == '\x7b' then
        match skipWs rest with
        | '\x7d' :: rest' => some (Json.jobj [], rest')
        | other =>
          match parseMembers fuel other with
          | some (ms, rest') => some (Json.jobj ms, rest')
          | none => none
      else if c == 't' then
        (stripLit ['r', 'u', 'e'] rest).map (fun r => (Json.jbool true, r))
      else if c == 'f' then
        (stripLit ['a', 'l', 's', 'e'] rest).map (fun r => (Json.jbool false, r))
      else if c == 'n' then
        (stripLit ['u', 'l', 'l'] rest).map (fun r => (Json.jnull, r))
      else if c == '-' || c.isDigit then
        match parseNum (c :: rest) with
        | some (q, rest') => some (Json.jnum q, rest')
        | none => none
      else none

/-- Parse the comma-separated elements of a non-empty JSON array, up to
and including the closing bracket. -/
def parseElems : Nat → List Char → Option (List Json × List Char)
  | 0, _ => none
  | fuel + 1, cs =>
    match parseVal fuel cs with
    | none => none
    | some (v, rest) =>
      match skipWs rest with
      | ',' :: rest' =>
        match parseElems fuel rest' with
        | some (es, rest'') => some (v :: es, rest'')
        | none => none
      | ']' :: rest' => some ([v], rest')
      | _ => none

/-- Parse the comma-separated members of a non-empty JSON object, up to
and including the closing curly bracket: each member is a string key, a
colon and a value. -/
def parseMembers : Nat → List Char → Option (List (String × Json) × List Char)
  | 0, _ => none
  | fuel + 1, cs =>
    match skipWs cs with
    | '"' :: afterQuote =>
      match parseStrChars afterQuote [] with
      | none => none
      | some (key, afterKey) =>
        match skipWs afterKey with
        | ':' :: afterColon =>
          match parseVal fuel afterColon with
          | none => none
          | some (v, rest) =>
            match skipWs rest with
            | ',' :: rest' =>
              match parseMembers fuel rest' with
              | some (ms, rest'') => some ((key, v) :: ms, rest'')
              | none => none
            | '\x7d' :: rest' => some ([(key, v)], rest')
            | _ => none
        | _ => none
    | _ => none

end

/-- Model of `JSON.parse`: `none` models a thrown `SyntaxError` (caught by
the action's `try`/`catch`). The fuel `2 * length + 4` dominates the
recursion depth: every two units of fuel spent on the mutual recursion
consume at least one input character. -/
def jsonParse (s : String) : Option Json :=
  match parseVal (2 * s.length + 4) s.data with
  | some (v, rest) => if (skipWs rest).isEmpty then some v else none
  | none => none

/-- JavaScript `errors.join("; ")`. -/
def joinErrs : List String → String
  | [] => ""
  | [e] => e
  | e :: e' :: rest => e ++ "; " ++ joinErrs (e' :: rest)

/-- One `userErrors` entry (`{ field message }`; the remove route also
selects `code`, which the actions never read). -/
structure UserError where
  field : String
  message : String
deriving DecidableEq

/-- The `option` argument of `productOptionUpdate`
(`{ id: opt.id, name: opt.name, position: opt.position }`). -/
structure OptionUpdateInput where
  id : String
  name : String
  position : Nat
deriving DecidableEq

/-- A mutation call issued by the remove route's action. -/
inductive RemoveCall where
  | productOptionUpdate (productId : String) (option : OptionUpdateInput)
      (optionValuesToDelete : List String) : RemoveCall
  | productOptionsDelete (productId : String) (options : List String) : RemoveCall
deriving DecidableEq

/-- The delete list of an update call, `none` for a delete call. -/
def updDeleteList : RemoveCall → Option (List String)
  | RemoveCall.productOptionUpdate _ _ d => some d
  | RemoveCall.productOptionsDelete _ _ => none

/-- Is this a `productOptionsDelete` call? -/
def RemoveCall.isDeleteCall : RemoveCall → Bool
  | RemoveCall.productOptionUpdate _ _ _ => false
  | RemoveCall.productOptionsDelete _ _ => true

/-- One `{ name: v }` value record built by `values.map(v => ({ name: v }))`. -/
structure ValueInput where
  name : Json

/-- One `OptionCreateInput` record (`{ name: optionName, values: ... }`). -/
structure OptionCreateInput where
  name : String
  values : List ValueInput

/-- A `productOptionsCreate` call issued by the add route's action
(`variantStrategy: LEAVE_AS_IS`). -/
structure CreateCall where
  productId : String
  options : List OptionCreateInput

/-- The JSON body the action returns, or `crash` for an unhandled
exception (no JSON response at all). -/
inductive ActionResponse where
  | failureMsg (error : String) : ActionResponse
  | successCount (addedCount : Nat) : ActionResponse
  | successBare : ActionResponse
  | crash : ActionResponse
deriving DecidableEq

/-- Does the response carry a count (`{ success: true, addedCount }`)? -/
def ActionResponse.hasCount : ActionResponse → Bool
  | ActionResponse.successCount _ => true
  | _ => false

/-- The remove route's per-option match predicate:
`o.name.toLowerCase().includes(optionName.toLowerCase())`. -/
def matchPred (optionName : String) (o : ProductOption) : Bool :=
  strIncludes (strToLower o.name) (strToLower optionName)

/-- The `productOptionUpdate` call built for a matched option: delete all
value ids but the first (`opt.optionValues.map(v => v.id).slice(1)`). -/
def updateCallOf (prod : Product) (opt : ProductOption) : RemoveCall :=
  RemoveCall.productOptionUpdate prod.id ⟨opt.id, opt.name, opt.position⟩
    ((opt.optionValues.map OptionValue.id).drop 1)

/-- The `productOptionsDelete` call built for a matched option
(`{ productId: prod.id, options: [opt.id] }`). -/
def deleteCallOf (prod : Product) (opt : ProductOption) : RemoveCall :=
  RemoveCall.productOptionsDelete prod.id [opt.id]

/-- One iteration of the remove action's per-product loop: the calls it
issues in order, and the error messages it pushes. `remote` answers each
mutation with its `userErrors` list. -/
def processProduct (remote : RemoveCall → List UserError) (optionName : String)
    (prod : Product) : List RemoveCall × List String :=
  match prod.options.find? (matchPred optionName) with
  | none => ([], [])
  | some opt =>
    if opt.optionValues.length > 1 then
      let ue := remote (updateCallOf prod opt)
      if ue.length ≠ 0 then
        ([updateCallOf prod opt], ue.map UserError.message)
      else
        ([updateCallOf prod opt, deleteCallOf prod opt],
          (remote (deleteCallOf prod opt)).map UserError.message)
    else
      ([deleteCallOf prod opt],
        (remote (deleteCallOf prod opt)).map UserError.message)

/-- The whole remove loop over the re-fetched catalog, in product order. -/
def processProducts (remote : RemoveCall → List UserError) (optionName : String) :
    List Product → List RemoveCall × List String
  | [] => ([], [])
  | p :: rest =>
    let r := processProduct remote optionName p
    let rs := processProducts remote optionName rest
    (r.1 ++ rs.1, r.2 ++ rs.2)

/-- Observable trace of one run of the remove action. -/
structure RemoveTrace where
  result : ActionResponse
  didFetch : Bool
  calls : List RemoveCall
  errors : List String

/-- The remove route's `action`: trim and validate the option name,
re-fetch the catalog, run the per-product loop, and answer success iff no
error was recorded (errors joined with `"; "` otherwise). -/
def removeAction (remote : RemoveCall → List UserError)
    (pages : List ProductPage) (optionNameRaw : String) : RemoveTrace :=
  let optionName := strTrim optionNameRaw
  if optionName = "" then
    ⟨ActionResponse.failureMsg "Please enter an option name.", false, [], []⟩
  else
    match fetchAll pages with
    | none => ⟨ActionResponse.crash, true, [], []⟩
    | some allProducts =>
      let r := processProducts remote optionName allProducts
      if r.2.isEmpty then ⟨ActionResponse.successBare, true, r.1, r.2⟩
      else ⟨ActionResponse.failureMsg (joinErrs r.2), true, r.1, r.2⟩

/-- The add route's filter
`all.filter(p => !p.options.some(o => o.name.toLowerCase() === optionName.toLowerCase()))`. -/
def toAddOf (all : List Product) (optionName : String) : List Product :=
  all.filter fun p =>
    !(p.options.any fun o => strToLower o.name == strToLower optionName)

/-- The `productOptionsCreate` call built for one product of `toAdd`
(`optionInput = [{ name: optionName, values: values.map(v => ({name: v})) }]`). -/
def addCall (optionName : String) (vs : List Json) (prod : Product) : CreateCall :=
  ⟨prod.id, [⟨optionName, vs.map fun v => ⟨v⟩⟩]⟩

/-- Observable trace of one run of the add action. -/
structure AddTrace where
  result : ActionResponse
  didFetch : Bool
  calls : List CreateCall
  errors : List String

/-- The add route's `action`: validate the trimmed option name and the
raw values string, parse the values JSON, re-fetch the catalog, filter to
the products missing the option, and issue one create call per such
product, collecting `userErrors` messages. If the parsed values are not
an array, the first loop iteration's `values.map` throws (`crash`); the
map is only reached when `toAdd` is non-empty. -/
def addAction (remote : CreateCall → List UserError) (pages : List ProductPage)
    (optionNameRaw valuesJSON : String) : AddTrace :=
  let optionName := strTrim optionNameRaw
  if optionName = "" then
    ⟨ActionResponse.failureMsg "Please enter an option name.", false, [], []⟩
  else if valuesJSON = "" then
    ⟨ActionResponse.failureMsg "Please provide three values.", false, [], []⟩
  else
    match jsonParse valuesJSON with
    | none => ⟨ActionResponse.failureMsg "Invalid values format.", false, [], []⟩
    | some values =>
      match fetchAll pages with
      | none => ⟨ActionResponse.crash, true, [], []⟩
      | some all =>
        let toAdd := toAddOf all optionName
        if toAdd.isEmpty then ⟨ActionResponse.successCount 0, true, [], []⟩
        else
          match values with
          | Json.jarr vs =>
            let calls := toAdd.map (addCall optionName vs)
            let errors := toAdd.flatMap fun p =>
              (remote (addCall optionName vs p)).map UserError.message
            if errors.isEmpty then
              ⟨ActionResponse.successCount toAdd.length, true, calls, errors⟩
            else
              ⟨ActionResponse.failureMsg (joinErrs errors), true, calls, errors⟩
          | _ => ⟨ActionResponse.crash, true, [], []⟩

/-! ### Concrete fixtures, used by witnesses and counterexamples -/

/-- A three-value "Color" option. -/
def optColor3 : ProductOption :=
  ⟨"o1", "Color", 1, [⟨"v1", "Red"⟩, ⟨"v2", "Green"⟩, ⟨"v3", "Yellow"⟩]⟩

/-- A one-value "Size" option. -/
def optSize1 : ProductOption := ⟨"o2", "Size", 2, [⟨"v4", "M"⟩]⟩

/-- A product already carrying "Color". -/
def prodA : Product := ⟨"p1", "Shirt", [optColor3]⟩

/-- A product with no options. -/
def prodB : Product := ⟨"p2", "Mug", []⟩

/-- A product carrying only "Size". -/
def prodC : Product := ⟨"p3", "Hat", [optSize1]⟩

/-- A terminal page (`hasNextPage = false`) holding the given products. -/
def lastPage (ps : List Product) : ProductPage :=
  ⟨ps.map fun p => ⟨"cur-" ++ p.id, p⟩, ⟨false⟩⟩

/-- A non-terminal page (`hasNextPage = true`) holding the given products. -/
def midPage (ps : List Product) : ProductPage :=
  ⟨ps.map fun p => ⟨"cur-" ++ p.id, p⟩, ⟨true⟩⟩

/-- A remote that answers every create call with no `userErrors`. -/
def remoteNoErrs : CreateCall → List UserError := fun _ => []

/-- A remote that answers every create call with two `userErrors`. -/
def remoteTwoErrs : CreateCall → List UserError :=
  fun _ => [⟨"f", "e1"⟩, ⟨"f", "e2"⟩]

/-- A remote that rejects create calls for product "p3" with a single
error and accepts the rest. -/
def remUpdB : CreateCall → List UserError := fun c =>
  if c.productId = "p3" then [⟨"option", "bad config"⟩] else []

/-- A remote that answers every remove-route call with no `userErrors`. -/
def remoteOkRemove : RemoveCall → List UserError := fun _ => []

/-- A remote that rejects every `productOptionUpdate` call and accepts
every `productOptionsDelete` call. -/
def remoteUpdFails : RemoveCall → List UserError := fun c =>
  match c with
  | RemoveCall.productOptionUpdate _ _ _ => [⟨"option", "boom"⟩]
  | RemoveCall.productOptionsDelete _ _ => []

/-! ### Helper lemmas -/

/-- On a well-formed response trace the pagination loop returns all nodes
of all pages, in order. -/
theorem fetchAll_wf : ∀ (pages : List ProductPage), wfTrace pages = true →
    fetchAll pages = some (pages.flatMap pageNodes)
  | [], h => by simp [wfTrace] at h
  | [pg], h => by
    simp only [wfTrace, beq_iff_eq] at h
    simp [fetchAll, h]
  | pg :: pg' :: rest, h => by
    simp only [wfTrace, Bool.and_eq_true, Bool.not_eq_true',
      List.isEmpty_eq_false] at h
    obtain ⟨⟨h1, h2⟩, h3⟩ := h
    have ih := fetchAll_wf (pg' :: rest) h3
    rcases hgl : pg.edges.getLast? with _ | e
    · exact absurd (List.getLast?_eq_none_iff.mp hgl) h2
    · have hstep : fetchAll (pg :: pg' :: rest)
          = (fetchAll (pg' :: rest)).map (fun more => pageNodes pg ++ more) := by
        simp [fetchAll, h1, hgl]
      rw [hstep, ih]
      simp

/-- The remove loop concatenates each product's calls and errors, in
product order. -/
theorem processProducts_eq (rem : RemoveCall → List UserError) (term : String) :
    ∀ ps : List Product,
    processProducts rem term ps
      = (ps.flatMap fun p => (processProduct rem term p).1,
         ps.flatMap fun p => (processProduct rem term p).2)
  | [] => by simp [processProducts]
  | p :: rest => by
    simp [processProducts, processProducts_eq rem term rest]

/-- A list whose chunks have at most one element flattens to one element
per non-empty chunk. -/
theorem length_flatMap_of_le_one {α β : Type} (l : List α) (f : α → List β)
    (h : ∀ p ∈ l, (f p).length ≤ 1) :
    (l.flatMap f).length = (l.filter fun p => !(f p).isEmpty).length := by
  induction l with
  | nil => simp
  | cons a l ih =>
    have ha := h a (by simp)
    have ih' := ih fun p hp => h p (by simp [hp])
    rcases hfa : f a with _ | ⟨x, xs⟩
    · simp [List.flatMap_cons, hfa, ih', List.filter_cons]
    · have hxs : xs = [] := by
        rw [hfa] at ha
        simpa [Nat.succ_le_succ_iff, List.length_eq_zero] using ha
      subst hxs
      simp [List.flatMap_cons, hfa, ih', List.filter_cons]

/-- A mapped list is empty iff the original is. -/
theorem isEmpty_map {α β : Type} (f : α → β) (l : List α) :
    (l.map f).isEmpty = l.isEmpty := by
  cases l <;> simp

/-- `jsonParse` rejects the empty string (so a successful parse means the
raw values string was non-empty). -/
theorem jsonParse_empty : jsonParse "" = none := rfl

/-- Unfolding of the add action once validation has passed, the values
parsed to an array, and the re-fetch succeeded. -/
theorem addAction_spec (remote : CreateCall → List UserError)
    (pages : List ProductPage) (nameRaw vjson : String) (vs : List Json)
    (all : List Product)
    (hn : strTrim nameRaw ≠ "")
    (hv : jsonParse vjson = some (Json.jarr vs))
    (hf : fetchAll pages = some all) :
    (addAction remote pages nameRaw vjson).didFetch = true ∧
    (addAction remote pages nameRaw vjson).calls
      = (toAddOf all (strTrim nameRaw)).map (addCall (strTrim nameRaw) vs) ∧
    (addAction remote pages nameRaw vjson).errors
      = (toAddOf all (strTrim nameRaw)).flatMap
          (fun p => (remote (addCall (strTrim nameRaw) vs p)).map
            UserError.message) ∧
    (addAction remote pages nameRaw vjson).result
      = (if (addAction remote pages nameRaw vjson).errors.isEmpty then
          ActionResponse.successCount (toAddOf all (strTrim nameRaw)).length
        else
          ActionResponse.failureMsg
            (joinErrs (addAction remote pages nameRaw vjson).errors)) := by
  have hne : vjson ≠ "" := by
    intro e
    rw [e, jsonParse_empty] at hv
    cases hv
  by_cases hta : (toAddOf all (strTrim nameRaw)).isEmpty
  · have hta' : toAddOf all (strTrim nameRaw) = [] := List.isEmpty_iff.mp hta
    simp [addAction, hn, hne, hv, hf, hta, hta']
  · simp only [addAction, if_neg hn, if_neg hne, hv, hf, if_neg hta]
    by_cases herr : ((toAddOf all (strTrim nameRaw)).flatMap
        (fun p => (remote (addCall (strTrim nameRaw) vs p)).map
          UserError.message)).isEmpty
    · simp [herr]
    · simp [herr]

/-- Unfolding of the remove action once validation has passed and the
re-fetch succeeded. -/
theorem removeAction_spec (remote : RemoveCall → List UserError)
    (pages : List ProductPage) (nameRaw : String) (all : List Product)
    (hn : strTrim nameRaw ≠ "")
    (hf : fetchAll pages = some all) :
    (removeAction remote pages nameRaw).errors
      = (processProducts remote (strTrim nameRaw) all).2 ∧
    (removeAction remote pages nameRaw).calls
      = (processProducts remote (strTrim nameRaw) all).1 ∧
    (removeAction remote pages nameRaw).result
      = (if (removeAction remote pages nameRaw).errors.isEmpty then
          ActionResponse.successBare
        else
          ActionResponse.failureMsg
            (joinErrs (removeAction remote pages nameRaw).errors)) := by
  by_cases herr : (processProducts remote (strTrim nameRaw) all).2.isEmpty <;>
    simp [removeAction, hn, hf, herr]

/-! ### Claim theorems -/

/-- C1: for every finite response trace whose last page reports
`hasNextPage = false` (and whose earlier pages report `hasNextPage = true`
with a readable last-edge cursor, i.e. a well-formed trace), the pagination
loop of both routes terminates and returns every product node of every
page exactly once, in page-and-edge order, so the accumulated count equals
the sum of all page sizes. -/
theorem catalogReader_terminates_complete (pages : List ProductPage)
    (h : wfTrace pages = true) :
    fetchAll pages = some (pages.flatMap pageNodes) ∧
    (pages.flatMap pageNodes).length
      = (pages.map fun pg => pg.edges.length).sum := by
  refine ⟨fetchAll_wf pages h, ?_⟩
  simp [List.flatMap, List.length_flatten, List.map_map, pageNodes,
    Function.comp_def]

/-- Witness for C1: a two-page trace of sizes 2 and 1 accumulates 3
products. -/
theorem catalogReader_terminates_complete_witness :
    wfTrace [midPage [prodA, prodB], lastPage [prodC]] = true ∧
    (fetchAll [midPage [prodA, prodB], lastPage [prodC]]
        = some ([midPage [prodA, prodB], lastPage [prodC]].flatMap pageNodes) ∧
      ([midPage [prodA, prodB], lastPage [prodC]].flatMap pageNodes).length
        = ([midPage [prodA, prodB], lastPage [prodC]].map
            fun pg => pg.edges.length).sum) :=
  ⟨by decide,
    catalogReader_terminates_complete [midPage [prodA, prodB], lastPage [prodC]]
      (by decide)⟩

/-- C2: in the add workflow, a catalog product is in `toAdd` (and so gets
a create-option call) iff none of its options' names equals the trimmed
option name under case-insensitive comparison. -/
theorem add_toAdd_iff_missing (all : List Product) (optionName : String)
    (p : Product) (h : p ∈ all) :
    p ∈ toAddOf all optionName ↔
      ∀ o ∈ p.options, ¬ strToLower o.name = strToLower optionName := by
  simp [toAddOf, List.mem_filter, h]

/-- Witness for C2: the optionless product is in `toAdd` for "Color". -/
theorem add_toAdd_iff_missing_witness :
    prodB ∈ [prodA, prodB] ∧
    (prodB ∈ toAddOf [prodA, prodB] "Color" ↔
      ∀ o ∈ prodB.options, ¬ strToLower o.name = strToLower "Color") :=
  ⟨by decide, add_toAdd_iff_missing [prodA, prodB] "Color" prodB (by decide)⟩

/-- C3: in the remove workflow, a product gets a mutation call iff some
option name contains the search term case-insensitively; the option
processed (the one all of the product's calls mention) is the first match
in the product's option list; a product with no match gets no call. -/
theorem remove_target_iff_match (remote : RemoveCall → List UserError)
    (optionName : String) (p : Product) (h : optionName ≠ "") :
    ((processProduct remote optionName p).1 ≠ [] ↔
      ∃ o ∈ p.options,
        strIncludes (strToLower o.name) (strToLower optionName) = true) ∧
    (∀ opt, p.options.find? (matchPred optionName) = some opt →
      matchPred optionName opt = true ∧
      (∃ l1 l2, p.options = l1 ++ opt :: l2 ∧
        ∀ o ∈ l1, matchPred optionName o = false) ∧
      ∀ c ∈ (processProduct remote optionName p).1,
        c = updateCallOf p opt ∨ c = deleteCallOf p opt) ∧
    (p.options.find? (matchPred optionName) = none →
      processProduct remote optionName p = ([], [])) := by
  refine ⟨?_, ?_, ?_⟩
  · cases hf : p.options.find? (matchPred optionName) with
    | none =>
      have hno := List.find?_eq_none.mp hf
      simp only [processProduct, hf]
      simp only [ne_eq, not_true_eq_false, false_iff, not_exists]
      intro o ho
      exact absurd ho.2 (by simpa [matchPred] using hno o ho.1)
    | some opt =>
      have hmem := List.mem_of_find?_eq_some hf
      have hpred := List.find?_some hf
      simp only [processProduct, hf]
      constructor
      · intro _
        exact ⟨opt, hmem, by simpa [matchPred] using hpred⟩
      · intro _
        split
        · split <;> simp
        · simp
  · intro opt hf
    refine ⟨List.find?_some hf, ?_, ?_⟩
    · obtain ⟨-, as, bs, heq, hall⟩ := List.find?_eq_some.mp hf
      exact ⟨as, bs, heq, fun o ho => by simpa using hall o ho⟩
    · intro c hc
      simp only [processProduct, hf] at hc
      split at hc
      · split at hc <;> simp at hc <;> tauto
      · simp at hc
        tauto
  · intro hf
    simp [processProduct, hf]

/-- Witness for C3: the term "color" on a product whose only option is
"Color". -/
theorem remove_target_iff_match_witness :
    "color" ≠ "" ∧
    (((processProduct remoteOkRemove "color" prodA).1 ≠ [] ↔
      ∃ o ∈ prodA.options,
        strIncludes (strToLower o.name) (strToLower "color") = true) ∧
    (∀ opt, prodA.options.find? (matchPred "color") = some opt →
      matchPred "color" opt = true ∧
      (∃ l1 l2, prodA.options = l1 ++ opt :: l2 ∧
        ∀ o ∈ l1, matchPred "color" o = false) ∧
      ∀ c ∈ (processProduct remoteOkRemove "color" prodA).1,
        c = updateCallOf prodA opt ∨ c = deleteCallOf prodA opt) ∧
    (prodA.options.find? (matchPred "color") = none →
      processProduct remoteOkRemove "color" prodA = ([], []))) :=
  ⟨by decide, remove_target_iff_match remoteOkRemove "color" prodA (by decide)⟩

/-- C4: for a matched option with more than one value, the remove loop
issues exactly one update call, whose delete list is all value ids except
the first — so it has `k - 1` entries and (with distinct value ids) never
covers all of the option's values. -/
theorem remove_trims_all_but_first (remote : RemoveCall → List UserError)
    (optionName : String) (p : Product) (opt : ProductOption)
    (h1 : p.options.find? (matchPred optionName) = some opt)
    (h2 : 1 < opt.optionValues.length) :
    (processProduct remote optionName p).1.filterMap updDeleteList
      = [(opt.optionValues.map OptionValue.id).drop 1] ∧
    ((opt.optionValues.map OptionValue.id).drop 1).length
      = opt.optionValues.length - 1 ∧
    ((opt.optionValues.map OptionValue.id).Nodup →
      ∃ v ∈ opt.optionValues,
        v.id ∉ (opt.optionValues.map OptionValue.id).drop 1) := by
  refine ⟨?_, by simp, ?_⟩
  · simp only [processProduct, h1, h2, if_pos]
    split <;> simp [updateCallOf, deleteCallOf, updDeleteList]
  · intro hnd
    rcases hv : opt.optionValues with _ | ⟨v, vs⟩
    · rw [hv] at h2
      simp at h2
    · refine ⟨v, by simp, ?_⟩
      rw [hv] at hnd
      simp only [List.map_cons, List.drop_succ_cons, List.drop_zero]
      exact (List.nodup_cons.mp (by simpa using hnd)).1

/-- Witness for C4: the three-value "Color" option yields a single update
call deleting the two non-first value ids. -/
theorem remove_trims_all_but_first_witness :
    prodA.options.find? (matchPred "color") = some optColor3 ∧
    1 < optColor3.optionValues.length ∧
    ((processProduct remoteOkRemove "color" prodA).1.filterMap updDeleteList
      = [(optColor3.optionValues.map OptionValue.id).drop 1] ∧
    ((optColor3.optionValues.map OptionValue.id).drop 1).length
      = optColor3.optionValues.length - 1 ∧
    ((optColor3.optionValues.map OptionValue.id).Nodup →
      ∃ v ∈ optColor3.optionValues,
        v.id ∉ (optColor3.optionValues.map OptionValue.id).drop 1)) :=
  ⟨by decide, by decide,
    remove_trims_all_but_first remoteOkRemove "color" prodA optColor3
      (by decide) (by decide)⟩

/-- C5: if the update call for a matched multi-value option reports
errors, those error messages are recorded, no delete call is issued for
that product, and the loop still processes the remaining products. -/
theorem remove_update_error_skips_delete (remote : RemoveCall → List UserError)
    (optionName : String) (p : Product) (opt : ProductOption)
    (rest : List Product)
    (h1 : p.options.find? (matchPred optionName) = some opt)
    (h2 : 1 < opt.optionValues.length)
    (h3 : remote (updateCallOf p opt) ≠ []) :
    processProduct remote optionName p
      = ([updateCallOf p opt],
         (remote (updateCallOf p opt)).map UserError.message) ∧
    (∀ c ∈ (processProduct remote optionName p).1,
      c.isDeleteCall = false) ∧
    processProducts remote optionName (p :: rest)
      = (updateCallOf p opt :: (processProducts remote optionName rest).1,
         (remote (updateCallOf p opt)).map UserError.message
           ++ (processProducts remote optionName rest).2) := by
  have hlen : (remote (updateCallOf p opt)).length ≠ 0 := by
    simpa [List.length_eq_zero] using h3
  have hp : processProduct remote optionName p
      = ([updateCallOf p opt],
         (remote (updateCallOf p opt)).map UserError.message) := by
    simp [processProduct, h1, h2, hlen]
  refine ⟨hp, ?_, ?_⟩
  · intro c hc
    rw [hp] at hc
    simp at hc
    simp [hc, updateCallOf, RemoveCall.isDeleteCall]
  · simp [processProducts, hp]

/-- Witness for C5: a remote rejecting the update call on the three-value
"Color" option. -/
theorem remove_update_error_skips_delete_witness :
    prodA.options.find? (matchPred "color") = some optColor3 ∧
    1 < optColor3.optionValues.length ∧
    remoteUpdFails (updateCallOf prodA optColor3) ≠ [] ∧
    (processProduct remoteUpdFails "color" prodA
      = ([updateCallOf prodA optColor3],
         (remoteUpdFails (updateCallOf prodA optColor3)).map UserError.message) ∧
    (∀ c ∈ (processProduct remoteUpdFails "color" prodA).1,
      c.isDeleteCall = false) ∧
    processProducts remoteUpdFails "color" (prodA :: [prodC])
      = (updateCallOf prodA optColor3
          :: (processProducts remoteUpdFails "color" [prodC]).1,
         (remoteUpdFails (updateCallOf prodA optColor3)).map UserError.message
           ++ (processProducts remoteUpdFails "color" [prodC]).2)) :=
  ⟨by decide, by decide, by decide,
    remove_update_error_skips_delete remoteUpdFails "color" prodA optColor3
      [prodC] (by decide) (by decide) (by decide)⟩

/-- C9: whenever a reached page response reports `hasNextPage = true` with
an empty edge list, the pagination loop's read of the last edge's cursor
fails and the whole read aborts (`fetchAll` yields no product list). -/
theorem pagination_true_empty_page_aborts :
    ∀ (pre : List ProductPage) (bad : ProductPage) (rest : List ProductPage),
    (∀ q ∈ pre, q.pageInfo.hasNextPage = true ∧ q.edges ≠ []) →
    bad.pageInfo.hasNextPage = true → bad.edges = [] →
    fetchAll (pre ++ bad :: rest) = none
  | [], bad, rest, _, h2, h3 => by
    simp [fetchAll, h2, h3]
  | pg :: pre, bad, rest, h1, h2, h3 => by
    obtain ⟨hpg1, hpg2⟩ := h1 pg (by simp)
    have ih := pagination_true_empty_page_aborts pre bad rest
      (fun q hq => h1 q (by simp [hq])) h2 h3
    rcases hgl : pg.edges.getLast? with _ | e
    · exact absurd (List.getLast?_eq_none_iff.mp hgl) hpg2
    · simp [fetchAll, hpg1, hgl, ih]

/-- Witness for C9: a single page with `hasNextPage = true` and no edges
aborts the read. -/
theorem pagination_true_empty_page_aborts_witness :
    fetchAll [ProductPage.mk [] ⟨true⟩] = none :=
  pagination_true_empty_page_aborts [] (ProductPage.mk [] ⟨true⟩) []
    (by simp) (by decide) (by decide)

/-- Counterexample for C6 as stated: one create call (n = 1) whose answer
carries two user errors (m = 1 failing call) yields an aggregate error
list with two entries, not m = 1. -/
theorem error_aggregation_cx :
    (addAction remoteTwoErrs [lastPage [prodB]] "Color" "[\"Red\"]").calls.length
      = 1 ∧
    ((addAction remoteTwoErrs [lastPage [prodB]] "Color" "[\"Red\"]").calls.filter
      fun c => !(remoteTwoErrs c).isEmpty).length = 1 ∧
    (addAction remoteTwoErrs [lastPage [prodB]] "Color" "[\"Red\"]").errors.length
      = 2 ∧
    (addAction remoteTwoErrs [lastPage [prodB]] "Color" "[\"Red\"]").result
      = ActionResponse.failureMsg "e1; e2" :=
  ⟨rfl, rfl, rfl, rfl⟩

/-- C6 (amended): the aggregate error list carries one entry per
user-error message of each failing call — exactly m entries when every
failing call reports a single error —, the workflow reports failure when
any error was recorded, and all n per-product calls still execute; in the
remove workflow every product's calls and errors likewise contribute
regardless of earlier products' errors. -/
theorem error_aggregation_amended (remote : CreateCall → List UserError)
    (pages : List ProductPage) (nameRaw vjson : String) (vs : List Json)
    (all : List Product)
    (hn : strTrim nameRaw ≠ "")
    (hv : jsonParse vjson = some (Json.jarr vs))
    (hf : fetchAll pages = some all) :
    (addAction remote pages nameRaw vjson).calls.length
      = (toAddOf all (strTrim nameRaw)).length ∧
    (addAction remote pages nameRaw vjson).errors
      = (toAddOf all (strTrim nameRaw)).flatMap
          (fun p => (remote (addCall (strTrim nameRaw) vs p)).map
            UserError.message) ∧
    ((∀ p ∈ toAddOf all (strTrim nameRaw),
        (remote (addCall (strTrim nameRaw) vs p)).length ≤ 1) →
      (addAction remote pages nameRaw vjson).errors.length
        = ((toAddOf all (strTrim nameRaw)).filter
            fun p => !(remote (addCall (strTrim nameRaw) vs p)).isEmpty).length) ∧
    ((addAction remote pages nameRaw vjson).errors ≠ [] →
      (addAction remote pages nameRaw vjson).result
        = ActionResponse.failureMsg
            (joinErrs (addAction remote pages nameRaw vjson).errors)) ∧
    (∀ (rem : RemoveCall → List UserError) (term : String) (ps : List Product),
      (processProducts rem term ps).1
        = ps.flatMap (fun p => (processProduct rem term p).1) ∧
      (processProducts rem term ps).2
        = ps.flatMap (fun p => (processProduct rem term p).2)) := by
  obtain ⟨-, hcalls, herrs, hres⟩ := addAction_spec remote pages nameRaw vjson
    vs all hn hv hf
  refine ⟨by simp [hcalls], herrs, ?_, ?_, ?_⟩
  · intro hle
    rw [herrs]
    rw [length_flatMap_of_le_one _ _
      (fun p hp => by simpa using hle p hp)]
    congr 1
    exact List.filter_congr fun p _ => by rw [isEmpty_map]
  · intro hne
    rw [hres, if_neg (by simpa [List.isEmpty_iff] using hne)]
  · intro rem term ps
    simp [processProducts_eq]

/-- Witness for C6 (amended): two products missing "Color", the second
call failing with a single error message. -/
theorem error_aggregation_amended_witness :
    strTrim "Color" ≠ "" ∧
    jsonParse "[\"Red\"]" = some (Json.jarr [Json.jstr "Red"]) ∧
    fetchAll [lastPage [prodB, prodC]] = some [prodB, prodC] ∧
    ((addAction remUpdB [lastPage [prodB, prodC]] "Color" "[\"Red\"]").calls.length
      = (toAddOf [prodB, prodC] (strTrim "Color")).length ∧
    (addAction remUpdB [lastPage [prodB, prodC]] "Color" "[\"Red\"]").errors
      = (toAddOf [prodB, prodC] (strTrim "Color")).flatMap
          (fun p => (remUpdB (addCall (strTrim "Color") [Json.jstr "Red"] p)).map
            UserError.message) ∧
    ((∀ p ∈ toAddOf [prodB, prodC] (strTrim "Color"),
        (remUpdB (addCall (strTrim "Color") [Json.jstr "Red"] p)).length ≤ 1) →
      (addAction remUpdB [lastPage [prodB, prodC]] "Color" "[\"Red\"]").errors.length
        = ((toAddOf [prodB, prodC] (strTrim "Color")).filter
            fun p => !(remUpdB (addCall (strTrim "Color") [Json.jstr "Red"] p)).isEmpty).length) ∧
    ((addAction remUpdB [lastPage [prodB, prodC]] "Color" "[\"Red\"]").errors ≠ [] →
      (addAction remUpdB [lastPage [prodB, prodC]] "Color" "[\"Red\"]").result
        = ActionResponse.failureMsg
            (joinErrs (addAction remUpdB [lastPage [prodB, prodC]] "Color" "[\"Red\"]").errors)) ∧
    (∀ (rem : RemoveCall → List UserError) (term : String) (ps : List Product),
      (processProducts rem term ps).1
        = ps.flatMap (fun p => (processProduct rem term p).1) ∧
      (processProducts rem term ps).2
        = ps.flatMap (fun p => (processProduct rem term p).2))) :=
  ⟨by decide, rfl, rfl,
    error_aggregation_amended remUpdB [lastPage [prodB, prodC]] "Color"
      "[\"Red\"]" [Json.jstr "Red"] [prodB, prodC] (by decide) rfl rfl⟩

/-- Counterexample for C7 as stated: the parseable empty value list `"[]"`
is not rejected — the catalog is re-fetched, a create-option call is
issued, and the action reports success. -/
theorem add_empty_list_not_rejected_cx :
    jsonParse "[]" = some (Json.jarr []) ∧
    (addAction remoteNoErrs [lastPage [prodB]] "Color" "[]").didFetch = true ∧
    (addAction remoteNoErrs [lastPage [prodB]] "Color" "[]").calls.length = 1 ∧
    (addAction remoteNoErrs [lastPage [prodB]] "Color" "[]").result
      = ActionResponse.successCount 1 :=
  ⟨rfl, rfl, rfl, rfl⟩

/-- C7 (amended): an option name that is empty after trimming, an empty
raw values string, or a values string that fails JSON parsing is rejected
as a user-facing validation failure before any remote call (no
product-listing query, no create-option mutation); a parseable but empty
value list, however, passes validation. -/
theorem add_validation_amended (remote : CreateCall → List UserError)
    (pages : List ProductPage) (nameRaw vjson : String)
    (h : strTrim nameRaw = "" ∨ vjson = "" ∨ jsonParse vjson = none) :
    (addAction remote pages nameRaw vjson).didFetch = false ∧
    (addAction remote pages nameRaw vjson).calls = [] ∧
    ∃ msg, (addAction remote pages nameRaw vjson).result
      = ActionResponse.failureMsg msg := by
  rcases h with h | h | h
  · exact ⟨by simp [addAction, h], by simp [addAction, h], "Please enter an option name.", by simp [addAction, h]⟩
  · by_cases hn : strTrim nameRaw = ""
    · exact ⟨by simp [addAction, hn], by simp [addAction, hn], "Please enter an option name.", by simp [addAction, hn]⟩
    · exact ⟨by simp [addAction, hn, h], by simp [addAction, hn, h], "Please provide three values.", by simp [addAction, hn, h]⟩
  · by_cases hn : strTrim nameRaw = ""
    · exact ⟨by simp [addAction, hn], by simp [addAction, hn], "Please enter an option name.", by simp [addAction, hn]⟩
    · by_cases hv : vjson = ""
      · exact ⟨by simp [addAction, hn, hv], by simp [addAction, hn, hv], "Please provide three values.", by simp [addAction, hn, hv]⟩
      · exact ⟨by simp [addAction, hn, hv, h], by simp [addAction, hn, hv, h], "Invalid values format.", by simp [addAction, hn, hv, h]⟩

/-- Witness for C7 (amended): an unparseable values string is rejected
before any remote interaction. -/
theorem add_validation_amended_witness :
    (strTrim "Color" = "" ∨ "not json" = "" ∨ jsonParse "not json" = none) ∧
    ((addAction remoteNoErrs [lastPage [prodB]] "Color" "not json").didFetch
        = false ∧
      (addAction remoteNoErrs [lastPage [prodB]] "Color" "not json").calls = [] ∧
      ∃ msg, (addAction remoteNoErrs [lastPage [prodB]] "Color" "not json").result
        = ActionResponse.failureMsg msg) :=
  ⟨Or.inr (Or.inr rfl),
    add_validation_amended remoteNoErrs [lastPage [prodB]] "Color" "not json"
      (Or.inr (Or.inr rfl))⟩

/-- Counterexample for C8 as stated: a fully successful remove run issues
its calls and answers `{ success: true }` with no count at all. -/
theorem remove_success_no_count_cx :
    (removeAction remoteOkRemove [lastPage [prodA]] "Color").calls.length = 2 ∧
    (removeAction remoteOkRemove [lastPage [prodA]] "Color").errors = [] ∧
    (removeAction remoteOkRemove [lastPage [prodA]] "Color").result
      = ActionResponse.successBare ∧
    ActionResponse.successBare.hasCount = false :=
  ⟨rfl, rfl, rfl, rfl⟩

/-- C8 (amended): both write operations succeed iff the aggregate error
list is empty at the end of the loop, and on failure join all recorded
messages into one string; on success the add action returns a success
signal with a count, while the remove action returns a bare success
signal without a count. -/
theorem result_contract_amended (addRemote : CreateCall → List UserError)
    (remRemote : RemoveCall → List UserError)
    (pagesA pagesR : List ProductPage) (nameA vjson nameR : String)
    (vsA : List Json) (allA allR : List Product)
    (hnA : strTrim nameA ≠ "")
    (hv : jsonParse vjson = some (Json.jarr vsA))
    (hfA : fetchAll pagesA = some allA)
    (hnR : strTrim nameR ≠ "")
    (hfR : fetchAll pagesR = some allR) :
    ((addAction addRemote pagesA nameA vjson).errors = [] ↔
      (addAction addRemote pagesA nameA vjson).result
        = ActionResponse.successCount (toAddOf allA (strTrim nameA)).length) ∧
    ((addAction addRemote pagesA nameA vjson).errors ≠ [] →
      (addAction addRemote pagesA nameA vjson).result
        = ActionResponse.failureMsg
            (joinErrs (addAction addRemote pagesA nameA vjson).errors)) ∧
    ((removeAction remRemote pagesR nameR).errors = [] ↔
      (removeAction remRemote pagesR nameR).result
        = ActionResponse.successBare) ∧
    ((removeAction remRemote pagesR nameR).errors ≠ [] →
      (removeAction remRemote pagesR nameR).result
        = ActionResponse.failureMsg
            (joinErrs (removeAction remRemote pagesR nameR).errors)) ∧
    ActionResponse.hasCount ActionResponse.successBare = false := by
  obtain ⟨-, -, -, hresA⟩ := addAction_spec addRemote pagesA nameA vjson
    vsA allA hnA hv hfA
  obtain ⟨-, -, hresR⟩ := removeAction_spec remRemote pagesR nameR allR hnR hfR
  refine ⟨?_, ?_, ?_, ?_, rfl⟩
  · constructor
    · intro he
      rw [hresA, if_pos (by simp [he])]
    · intro hr
      by_contra hne
      rw [hresA, if_neg (by simpa [List.isEmpty_iff] using hne)] at hr
      cases hr
  · intro hne
    rw [hresA, if_neg (by simpa [List.isEmpty_iff] using hne)]
  · constructor
    · intro he
      rw [hresR, if_pos (by simp [he])]
    · intro hr
      by_contra hne
      rw [hresR, if_neg (by simpa [List.isEmpty_iff] using hne)] at hr
      cases hr
  · intro hne
    rw [hresR, if_neg (by simpa [List.isEmpty_iff] using hne)]

/-- Witness for C8 (amended): an all-clear add run over one missing
product and an all-clear remove run over one matched product. -/
theorem result_contract_amended_witness :
    strTrim "Color" ≠ "" ∧
    jsonParse "[\"Red\"]" = some (Json.jarr [Json.jstr "Red"]) ∧
    fetchAll [lastPage [prodB]] = some [prodB] ∧
    fetchAll [lastPage [prodA]] = some [prodA] ∧
    (((addAction remoteNoErrs [lastPage [prodB]] "Color" "[\"Red\"]").errors = [] ↔
      (addAction remoteNoErrs [lastPage [prodB]] "Color" "[\"Red\"]").result
        = ActionResponse.successCount (toAddOf [prodB] (strTrim "Color")).length) ∧
    ((addAction remoteNoErrs [lastPage [prodB]] "Color" "[\"Red\"]").errors ≠ [] →
      (addAction remoteNoErrs [lastPage [prodB]] "Color" "[\"Red\"]").result
        = ActionResponse.failureMsg
            (joinErrs (addAction remoteNoErrs [lastPage [prodB]] "Color" "[\"Red\"]").errors)) ∧
    ((removeAction remoteOkRemove [lastPage [prodA]] "Color").errors = [] ↔
      (removeAction remoteOkRemove [lastPage [prodA]] "Color").result
        = ActionResponse.successBare) ∧
    ((removeAction remoteOkRemove [lastPage [prodA]] "Color").errors ≠ [] →
      (removeAction remoteOkRemove [lastPage [prodA]] "Color").result
        = ActionResponse.failureMsg
            (joinErrs (removeAction remoteOkRemove [lastPage [prodA]] "Color").errors)) ∧
    ActionResponse.hasCount ActionResponse.successBare = false) :=
  ⟨by decide, rfl, rfl, rfl,
    result_contract_amended remoteNoErrs remoteOkRemove [lastPage [prodB]]
      [lastPage [prodA]] "Color" "[\"Red\"]" "Color" [Json.jstr "Red"]
      [prodB] [prodA] (by decide) rfl rfl (by decide) rfl⟩

/-- C10: the value string "5" parses as JSON but not as a list; it passes
input validation, and whenever `toAdd` is non-empty the per-product option
input construction (`values.map`) throws, aborting the whole action with
no create call issued and no JSON response. -/
theorem add_nonarray_values_crash (remote : CreateCall → List UserError)
    (pages : List ProductPage) (nameRaw : String) (all : List Product)
    (hn : strTrim nameRaw ≠ "")
    (hf : fetchAll pages = some all)
    (hta : (toAddOf all (strTrim nameRaw)).isEmpty = false) :
    jsonParse "5" = some (Json.jnum 5) ∧
    addAction remote pages nameRaw "5"
      = ⟨ActionResponse.crash, true, [], []⟩ := by
  refine ⟨rfl, ?_⟩
  have h5 : ("5" : String) ≠ "" := by decide
  have hp5 : jsonParse "5" = some (Json.jnum 5) := rfl
  simp [addAction, hn, h5, hp5, hf, hta]

/-- Witness for C10: one product missing "Color" makes the action crash
on the non-array values string "5". -/
theorem add_nonarray_values_crash_witness :
    strTrim "Color" ≠ "" ∧
    fetchAll [lastPage [prodB]] = some [prodB] ∧
    (toAddOf [prodB] (strTrim "Color")).isEmpty = false ∧
    (jsonParse "5" = some (Json.jnum 5) ∧
      addAction remoteNoErrs [lastPage [prodB]] "Color" "5"
        = ⟨ActionResponse.crash, true, [], []⟩) :=
  ⟨by decide, rfl, by decide,
    add_nonarray_values_crash remoteNoErrs [lastPage [prodB]] "Color" [prodB]
      (by decide) rfl (by decide)⟩

end OptionApp
